import Mathlib

/-!
# Verification of the backtest simulation engine (trade-agent)

Shallow embedding of `src/backtest/backtest.service.ts` and
`src/risk-management/custom-risk-management/fixed-percent.risk.ts`.

JavaScript numbers are modelled by `JSNum`: an exact rational together with
the IEEE special values `+Infinity`, `-Infinity` and `NaN`.  Arithmetic on
finite values is exact (no rounding is modelled); the propagation rules for
the special values follow IEEE-754 / ECMAScript (division by zero yields a
signed infinity or NaN, any operation on NaN yields NaN, comparisons with
NaN are false, `Math.max` returns NaN if an argument is NaN).  Negative
zero is not modelled: its only observable effect here would be the sign of
an infinity produced by dividing by it, which none of the claims touch.
-/

attribute [local semireducible] Rat.add Rat.mul Rat.sub Rat.inv

/-- A JavaScript number: a finite exact rational, `+Infinity`, `-Infinity`
or `NaN`. -/
inductive JSNum where
  | fin : ℚ → JSNum
  | inf : JSNum
  | ninf : JSNum
  | nan : JSNum
deriving DecidableEq, Repr

namespace JSNum

instance (n : Nat) : OfNat JSNum n := ⟨fin n⟩

/-- IEEE negation. -/
def neg : JSNum → JSNum
  | fin a => fin (-a)
  | inf => ninf
  | ninf => inf
  | nan => nan

/-- IEEE addition (infinities of opposite sign give NaN). -/
def add : JSNum → JSNum → JSNum
  | fin a, fin b => fin (a + b)
  | fin _, inf => inf
  | fin _, ninf => ninf
  | inf, fin _ => inf
  | inf, inf => inf
  | inf, ninf => nan
  | ninf, fin _ => ninf
  | ninf, inf => nan
  | ninf, ninf => ninf
  | _, _ => nan

/-- IEEE subtraction, `a - b = a + (-b)`. -/
def sub (a b : JSNum) : JSNum := add a (neg b)

/-- IEEE multiplication (`0 × ∞ = NaN`). -/
def mul : JSNum → JSNum → JSNum
  | fin a, fin b => fin (a * b)
  | fin a, inf => if 0 < a then inf else if a < 0 then ninf else nan
  | fin a, ninf => if 0 < a then ninf else if a < 0 then inf else nan
  | inf, fin b => if 0 < b then inf else if b < 0 then ninf else nan
  | ninf, fin b => if 0 < b then ninf else if b < 0 then inf else nan
  | inf, inf => inf
  | inf, ninf => ninf
  | ninf, inf => ninf
  | ninf, ninf => inf
  | _, _ => nan

/-- IEEE division: a nonzero finite over zero is a signed infinity,
`0/0`, `∞/∞` and anything with NaN is NaN, finite over infinite is `0`. -/
def div : JSNum → JSNum → JSNum
  | fin a, fin b =>
      if b ≠ 0 then fin (a / b)
      else if 0 < a then inf else if a < 0 then ninf else nan
  | fin _, inf => fin 0
  | fin _, ninf => fin 0
  | inf, fin b => if 0 ≤ b then inf else ninf
  | ninf, fin b => if 0 ≤ b then ninf else inf
  | inf, inf => nan
  | inf, ninf => nan
  | ninf, inf => nan
  | ninf, ninf => nan
  | _, _ => nan

instance : Neg JSNum := ⟨neg⟩
instance : Add JSNum := ⟨add⟩
instance : Sub JSNum := ⟨sub⟩
instance : Mul JSNum := ⟨mul⟩
instance : Div JSNum := ⟨div⟩

/-- JavaScript `<` : false whenever an operand is NaN. -/
def blt : JSNum → JSNum → Bool
  | fin a, fin b => decide (a < b)
  | fin _, inf => true
  | fin _, ninf => false
  | inf, _ => false
  | ninf, fin _ => true
  | ninf, inf => true
  | ninf, ninf => false
  | nan, _ => false
  | _, nan => false

/-- JavaScript `<=` : false whenever an operand is NaN. -/
def ble : JSNum → JSNum → Bool
  | fin a, fin b => decide (a ≤ b)
  | fin _, inf => true
  | fin _, ninf => false
  | inf, inf => true
  | inf, _ => false
  | ninf, nan => false
  | ninf, _ => true
  | nan, _ => false
  | _, nan => false

/-- JavaScript `>` . -/
def bgt (a b : JSNum) : Bool := blt b a

/-- JavaScript `>=` . -/
def bge (a b : JSNum) : Bool := ble b a

/-- JavaScript `Math.max`: NaN if either argument is NaN. -/
def max : JSNum → JSNum → JSNum
  | nan, _ => nan
  | _, nan => nan
  | a, b => if blt a b then b else a

/-- JavaScript `Math.abs`. -/
def abs : JSNum → JSNum
  | fin a => fin |a|
  | inf => inf
  | ninf => inf
  | nan => nan

end JSNum

/-! ## Data model (`backtest.interface.ts`, `risk.interface.ts`) -/

/-- Type `TradeSignal`: strategy output, `'long' | 'short'` or the no-action
value (spelled `none`/`null` in the interface drafts; only `long` and
`short` are ever tested by the engine). -/
inductive TradeSignal where
  | long : TradeSignal
  | short : TradeSignal
  | none : TradeSignal
deriving DecidableEq, Repr

/-- Trade `action` tag, `'OPEN' | 'CLOSE'`. -/
inductive TradeAction where
  | OPEN : TradeAction
  | CLOSE : TradeAction
deriving DecidableEq, Repr

/-- Type `MarketData`: one candle.  The engine reads only `price` and
`timestamp`; `volume` and the OHLC fields are carried along unused. -/
structure MarketData where
  timestamp : Int
  price : JSNum
  volume : JSNum
  high : JSNum
  low : JSNum
  openP : JSNum
  close : JSNum
deriving DecidableEq, Repr

/-- Type `Position` as used by `BacktestService` (TS optional fields are
`Option`s; `pnl` is declared on the interface but never assigned by the
service). -/
structure Position where
  type : TradeSignal
  entryPrice : JSNum
  size : JSNum
  stopLoss : JSNum
  takeProfit : JSNum
  entryTime : Int
  entryBalance : JSNum
  status : String
  exitPrice : Option JSNum := Option.none
  exitTime : Option Int := Option.none
  exitBalance : Option JSNum := Option.none
  pnl : Option JSNum := Option.none
deriving DecidableEq, Repr

/-- Type `Trade`: one ledger record. -/
structure Trade where
  type : TradeSignal
  action : TradeAction
  price : JSNum
  size : JSNum
  timestamp : Int
  balance : JSNum
  pnl : JSNum
deriving DecidableEq, Repr

/-- Type `RiskParameters` (`risk.interface.ts`): riskPercent, entryPrice,
stopLossPrice. -/
structure RiskParameters where
  riskPercent : JSNum
  entryPrice : JSNum
  stopLossPrice : JSNum
deriving DecidableEq, Repr

/-- Type `RiskResult` (`risk.interface.ts`). -/
structure RiskResult where
  positionSize : JSNum
  stopLoss : JSNum
  takeProfit : JSNum
  riskAmount : JSNum
  riskPercent : JSNum
  riskRewardRatio : JSNum
deriving DecidableEq, Repr

/-- Type `BacktestConfig`: the fields the engine destructures: initial balance,
date range, data sequence, risk parameters and the flat fee rate.
Strategy / risk-rule names and `strategyParams` are replaced by passing
the resolved plugin functions (with their parameters already applied)
directly to `runBacktest`, mirroring the registry lookup the engine
delegates to its collaborator services. -/
structure BacktestConfig where
  initialBalance : JSNum
  startDate : Int
  endDate : Int
  data : List MarketData
  riskParams : RiskParameters
  fees : JSNum
deriving DecidableEq, Repr

/-- Type `BacktestResult` (the run timestamp `executedAt` is omitted: wall
clock time is outside the embedding, and no claim touches it). -/
structure BacktestResult where
  trades : List Trade
  totalTrades : JSNum
  winningTrades : JSNum
  winRate : JSNum
  initialBalance : JSNum
  finalBalance : JSNum
  totalReturn : JSNum
  maxDrawdown : JSNum
deriving DecidableEq, Repr

/-- A resolved strategy plugin: `execute(data, params) -> TradeSignal`,
with its `params` already applied. -/
abbrev StrategyFn : Type := MarketData → TradeSignal

/-- A resolved risk plugin:
`execute(signal, balance, params) -> RiskResult`. -/
abbrev RiskFn : Type := TradeSignal → JSNum → RiskParameters → RiskResult

/-! ## Risk plugins
(`fixed-percent.risk.ts`, `position-size.calculator.ts`) -/

namespace FixedPercentRiskStrategy

/-- Method `FixedPercentRiskStrategy.execute`: riskAmount = balance × riskPercent
/ 100; positionSize = riskAmount / |entryPrice − stopLossPrice|;
takeProfit branches on the signal direction with hard-coded
risk-reward ratio 2. -/
def execute (signal : TradeSignal) (balance : JSNum) (params : RiskParameters) : RiskResult :=
  let riskAmount := (balance * params.riskPercent) / (100 : JSNum)
  let priceDiff := JSNum.abs (params.entryPrice - params.stopLossPrice)
  let positionSize := riskAmount / priceDiff
  let riskRewardRatio := (2 : JSNum)
  let takeProfit :=
    if signal = TradeSignal.long then params.entryPrice + priceDiff * riskRewardRatio
    else params.entryPrice - priceDiff * riskRewardRatio
  { positionSize := positionSize
    stopLoss := params.stopLossPrice
    takeProfit := takeProfit
    riskAmount := riskAmount
    riskPercent := params.riskPercent
    riskRewardRatio := riskRewardRatio }

end FixedPercentRiskStrategy

namespace PositionSizeCalculator

/-- Method `PositionSizeCalculator.execute`: textually identical algorithm to
`FixedPercentRiskStrategy.execute`. -/
def execute (signal : TradeSignal) (balance : JSNum) (params : RiskParameters) : RiskResult :=
  let riskAmount := (balance * params.riskPercent) / (100 : JSNum)
  let priceDiff := JSNum.abs (params.entryPrice - params.stopLossPrice)
  let positionSize := riskAmount / priceDiff
  let riskRewardRatio := (2 : JSNum)
  let takeProfit :=
    if signal = TradeSignal.long then params.entryPrice + priceDiff * riskRewardRatio
    else params.entryPrice - priceDiff * riskRewardRatio
  { positionSize := positionSize
    stopLoss := params.stopLossPrice
    takeProfit := takeProfit
    riskAmount := riskAmount
    riskPercent := params.riskPercent
    riskRewardRatio := riskRewardRatio }

end PositionSizeCalculator

/-! ## The backtest engine (`backtest.service.ts`) -/

namespace BacktestService

/-- The object `{ newBalance }` returned by `closePosition`. -/
structure CloseResult where
  newBalance : JSNum
deriving DecidableEq, Repr

/-- One recorded invocation of
`strategiesService.executeStrategy` (line 97 of the service): the candle's
timestamp and whether a position was open when the call was made.  The TS
call is an effectful `await`; the embedding logs each call so that claims
about *when* the strategy is consulted are expressible. -/
structure StratCall where
  timestamp : Int
  openAtStart : Bool
deriving DecidableEq, Repr

/-- The mutable state of `runBacktest`'s replay loop: `balance`, `trades`
and `position`, plus the strategy-invocation log. -/
structure LoopState where
  balance : JSNum
  trades : List Trade
  position : Option Position
  calls : List StratCall
deriving DecidableEq, Repr

/-- Method `openPosition(signal, riskResult, candle)`. -/
def openPosition (signal : TradeSignal) (riskResult : RiskResult) (candle : MarketData) : Position :=
  { type := signal
    entryPrice := candle.price
    size := riskResult.positionSize
    stopLoss := riskResult.stopLoss
    takeProfit := riskResult.takeProfit
    entryTime := candle.timestamp
    entryBalance := riskResult.riskAmount
    status := "OPEN" }

/-- Method `shouldClosePosition(position, candle)`. -/
def shouldClosePosition (position : Position) (candle : MarketData) : Bool :=
  let currentPrice := candle.price
  if position.type = TradeSignal.long then
    JSNum.ble currentPrice position.stopLoss || JSNum.bge currentPrice position.takeProfit
  else
    JSNum.bge currentPrice position.stopLoss || JSNum.ble currentPrice position.takeProfit

/-- Method `closePosition(position, candle, feeRate, currentBalance)`. -/
def closePosition (position : Position) (candle : MarketData) (feeRate : JSNum) (currentBalance : JSNum) : CloseResult :=
  let exitPrice := candle.price
  let fee := feeRate * position.size * (position.entryPrice + exitPrice)
  let pnl :=
    if position.type = TradeSignal.long then (exitPrice - position.entryPrice) * position.size
    else (position.entryPrice - exitPrice) * position.size
  { newBalance := currentBalance + pnl - fee }

/-- Method `updateAndClosePosition(position, candle, balance)`: spreads the
position and sets status / exit fields.  Note `pnl` is *not* among the
fields it sets. -/
def updateAndClosePosition (position : Position) (candle : MarketData) (balance : JSNum) : Position :=
  { position with
    status := "CLOSED"
    exitPrice := Option.some candle.price
    exitTime := Option.some candle.timestamp
    exitBalance := Option.some balance }

/-- Method `createTradeRecord(position, type)`: the `??` fallbacks are `getD`. -/
def createTradeRecord (position : Position) (type : TradeAction) : Trade :=
  { type := position.type
    action := type
    price := if type = TradeAction.OPEN then position.entryPrice else position.exitPrice.getD position.entryPrice
    size := position.size
    timestamp := if type = TradeAction.OPEN then position.entryTime else position.exitTime.getD position.entryTime
    balance := if type = TradeAction.OPEN then position.entryBalance else position.exitBalance.getD position.entryBalance
    pnl := if type = TradeAction.CLOSE then position.pnl.getD (0 : JSNum) else (0 : JSNum) }

/-- The body of `calculateMaxDrawdown`'s `forEach`: conditional peak
update, then drawdown and running maximum.  State = (peak, mdd). -/
def mddStep (s : JSNum × JSNum) (bal : JSNum) : JSNum × JSNum :=
  let peak := if JSNum.bgt bal s.1 then bal else s.1
  let drawdown := ((peak - bal) / peak) * (100 : JSNum)
  (peak, JSNum.max s.2 drawdown)

/-- Method `calculateMaxDrawdown(trades)`: peak starts at `-Infinity`, mdd at
`0`. -/
def calculateMaxDrawdown (trades : List Trade) : JSNum :=
  (trades.foldl (fun s t => mddStep s t.balance) (JSNum.ninf, (0 : JSNum))).2

/-- Method `calculateBacktestResult(trades, initialBalance, finalBalance)`:
`totalTrades = trades.length / 2` (JS number division),
`winningTrades` counts CLOSE records with `pnl > 0`,
`winRate = winningTrades / totalTrades * 100`. -/
def calculateBacktestResult (trades : List Trade) (initialBalance finalBalance : JSNum) : BacktestResult :=
  let totalReturn := ((finalBalance - initialBalance) / initialBalance) * (100 : JSNum)
  let totalTrades := (JSNum.fin (trades.length : ℚ)) / (2 : JSNum)
  let winningTrades :=
    JSNum.fin (((trades.filter (fun t => t.action == TradeAction.CLOSE && JSNum.bgt t.pnl (0 : JSNum))).length : ℚ))
  let winRate := (winningTrades / totalTrades) * (100 : JSNum)
  { trades := trades
    totalTrades := totalTrades
    winningTrades := winningTrades
    winRate := winRate
    initialBalance := initialBalance
    finalBalance := finalBalance
    totalReturn := totalReturn
    maxDrawdown := calculateMaxDrawdown trades }

/-- One iteration of the `for (const candle of data)` loop.  The strategy
is executed first, unconditionally (line 97); the open guard
`(signal === 'long' || signal === 'short') && !position` only gates acting
on the signal; the close check then runs against the (possibly
just-opened) position on the same candle. -/
def stepCandle (strategy : StrategyFn) (riskStrategy : RiskFn) (riskParams : RiskParameters) (fees : JSNum) (st : LoopState) (candle : MarketData) : LoopState :=
  let signal := strategy candle
  let calls := st.calls ++ [{ timestamp := candle.timestamp, openAtStart := st.position.isSome }]
  let opened :=
    if (signal = TradeSignal.long ∨ signal = TradeSignal.short) ∧ st.position = Option.none then
      let riskResult := riskStrategy signal st.balance { riskParams with entryPrice := candle.price }
      let p := openPosition signal riskResult candle
      (Option.some p, st.trades ++ [createTradeRecord p TradeAction.OPEN])
    else (st.position, st.trades)
  match opened.1 with
  | Option.some p =>
      if shouldClosePosition p candle then
        let closeResult := closePosition p candle fees st.balance
        let newBalance := closeResult.newBalance
        let p' := updateAndClosePosition p candle newBalance
        { balance := newBalance
          trades := opened.2 ++ [createTradeRecord p' TradeAction.CLOSE]
          position := Option.none
          calls := calls }
      else
        { balance := st.balance, trades := opened.2, position := Option.some p, calls := calls }
  | Option.none =>
      { balance := st.balance, trades := opened.2, position := Option.none, calls := calls }

/-- Method `runBacktest` up to (and including) the forced liquidation of a
remaining open position against `data[data.length - 1]`; returns the
final loop state.  The inner `Option.none` branch of `getLast?` is
unreachable: a position can only be open after at least one candle was
processed. -/
def runBacktestAux (strategy : StrategyFn) (riskStrategy : RiskFn) (config : BacktestConfig) : LoopState :=
  let init : LoopState :=
    { balance := config.initialBalance, trades := [], position := Option.none, calls := [] }
  let st := config.data.foldl (stepCandle strategy riskStrategy config.riskParams config.fees) init
  match st.position with
  | Option.some p =>
      match config.data.getLast? with
      | Option.some lastCandle =>
          let closeResult := closePosition p lastCandle config.fees st.balance
          let newBalance := closeResult.newBalance
          let p' := updateAndClosePosition p lastCandle newBalance
          { balance := newBalance
            trades := st.trades ++ [createTradeRecord p' TradeAction.CLOSE]
            position := Option.none
            calls := st.calls }
      | Option.none => st
  | Option.none => st

/-- Method `runBacktest(config, strategyName, riskRuleName)`: replay loop, forced
liquidation, then `calculateBacktestResult`.  (Persistence via
`saveBacktestResult` is an external collaborator and is outside the
embedding.)  The code performs no validation of `config` whatsoever. -/
def runBacktest (strategy : StrategyFn) (riskStrategy : RiskFn) (config : BacktestConfig) : BacktestResult :=
  let st := runBacktestAux strategy riskStrategy config
  calculateBacktestResult st.trades config.initialBalance st.balance

end BacktestService

/-! ## Ledger pairing: OPEN/CLOSE well-formedness -/

namespace BacktestService

/-- Transition of the one-position state machine read off the ledger:
`some false` = no position open so far, `some true` = one position open,
`none` = malformed sequence (an OPEN while open, or a CLOSE while
closed). -/
def stepAct : Option Bool → TradeAction → Option Bool
  | Option.some false, TradeAction.OPEN => Option.some true
  | Option.some true, TradeAction.CLOSE => Option.some false
  | _, _ => Option.none

/-- Ledger state after replaying a trade list from a given start state. -/
def ledgerStateFrom (s : Option Bool) (l : List Trade) : Option Bool :=
  l.foldl (fun s t => stepAct s t.action) s

/-- Ledger state of a trade list, starting with no open position. -/
def ledgerState (l : List Trade) : Option Bool :=
  ledgerStateFrom (Option.some false) l

/-- A ledger that decomposes into consecutive OPEN/CLOSE pairs. -/
inductive PairedChunks : List Trade → Prop
  | nil : PairedChunks []
  | cons {o c : Trade} {rest : List Trade} :
      o.action = TradeAction.OPEN → c.action = TradeAction.CLOSE →
      PairedChunks rest → PairedChunks (o :: c :: rest)

/-- Number of CLOSE records in a ledger. -/
def countCloseRecords (l : List Trade) : Nat :=
  (l.filter (fun t => t.action == TradeAction.CLOSE)).length

end BacktestService

/-! ## Additional definitions: spec-modelled metric and test fixtures -/

namespace BacktestService

/-- One step of the walk in the spec's reference definition of
maxDrawdown: the running peak is updated to the larger of peak and the
event's balance, then drawdown = (peak − balance) / peak × 100 and the
running maximum is kept.  The per-event formula is the one the spec
states, which coincides with the engine's loop body; only the
initialisation differs. -/
def specMddStep (s : JSNum × JSNum) (bal : JSNum) : JSNum × JSNum :=
  let peak := JSNum.max s.1 bal
  let drawdown := ((peak - bal) / peak) * (100 : JSNum)
  (peak, JSNum.max s.2 drawdown)

/-- Modelled from the spec: "walk the ledger's balance-at-event sequence
in order, tracking running peak; drawdown at each point =
(peak − balanceAtEvent) / peak × 100; maxDrawdown = running maximum of
that value, floor 0, initial peak = first recorded balance".  Takes the
balance-at-event sequence directly. -/
def specMaxDrawdown (balances : List JSNum) : JSNum :=
  match balances with
  | [] => JSNum.fin 0
  | b :: _ => (balances.foldl specMddStep (b, JSNum.fin 0)).2

end BacktestService

/-- Test fixture: a candle with the given timestamp and price (the
fields the engine never reads are zeroed). -/
def candleAt (t : Int) (p : ℚ) : MarketData :=
  { timestamp := t, price := JSNum.fin p, volume := JSNum.fin 0, high := JSNum.fin 0,
    low := JSNum.fin 0, openP := JSNum.fin 0, close := JSNum.fin 0 }

/-- Test fixture: a strategy that always signals `long`. -/
def alwaysLong : StrategyFn := fun _ => TradeSignal.long

/-- Test fixture: a strategy that never signals. -/
def neverSignal : StrategyFn := fun _ => TradeSignal.none

/-- Test fixture: two flat candles at price 100; riskPercent 2, stop 98,
fee rate 0.001, initial balance 10000.  A long opened at candle 1
(stop 98, target 104) is still open at candle 2 and is force-liquidated
there. -/
def cfgTwoFlat : BacktestConfig :=
  { initialBalance := JSNum.fin 10000, startDate := 0, endDate := 10,
    data := [candleAt 1 100, candleAt 2 100],
    riskParams := { riskPercent := JSNum.fin 2, entryPrice := JSNum.fin 0,
                    stopLossPrice := JSNum.fin 98 },
    fees := JSNum.fin (1/1000) }

/-- Test fixture: same as `cfgTwoFlat` but with an empty data sequence
(one of the inputs the spec's ConfigurationError is supposed to
reject). -/
def cfgEmptyData : BacktestConfig :=
  { cfgTwoFlat with data := [] }

/-- Test fixture: a single candle and riskPercent 0, so the OPEN trade
records balance-at-event 0 (= the risk amount). -/
def cfgZeroRisk : BacktestConfig :=
  { cfgTwoFlat with
    riskParams := { riskPercent := JSNum.fin 0, entryPrice := JSNum.fin 0,
                    stopLossPrice := JSNum.fin 98 },
    data := [candleAt 1 100] }

/-- Test fixture: a loop state holding an open long position (entry 100,
size 100, stop 98, target 104), as produced by processing the first
candle of `cfgTwoFlat`. -/
def openLongState : BacktestService.LoopState :=
  BacktestService.stepCandle alwaysLong FixedPercentRiskStrategy.execute
    cfgTwoFlat.riskParams cfgTwoFlat.fees
    { balance := JSNum.fin 10000, trades := [], position := Option.none, calls := [] }
    (candleAt 1 100)

/-- Test fixture: a two-record ledger with positive finite balances
(the shape produced by one opened-then-liquidated long of
`cfgTwoFlat`). -/
def mddLedgerFixture : List Trade :=
  [{ type := TradeSignal.long, action := TradeAction.OPEN, price := JSNum.fin 100,
     size := JSNum.fin 100, timestamp := 1, balance := JSNum.fin 200, pnl := JSNum.fin 0 },
   { type := TradeSignal.long, action := TradeAction.CLOSE, price := JSNum.fin 100,
     size := JSNum.fin 100, timestamp := 2, balance := JSNum.fin 9980, pnl := JSNum.fin 0 }]

/-! ## Theorems -/

namespace JSNum

@[simp] theorem fin_neg (a : ℚ) : -(fin a) = fin (-a) := rfl

@[simp] theorem fin_add (a b : ℚ) : fin a + fin b = fin (a + b) := rfl

@[simp] theorem fin_sub (a b : ℚ) : fin a - fin b = fin (a - b) := by
  show sub (fin a) (fin b) = fin (a - b)
  simp [sub, neg, add, sub_eq_add_neg]

@[simp] theorem fin_mul (a b : ℚ) : fin a * fin b = fin (a * b) := rfl

theorem fin_div (a b : ℚ) (h : b ≠ 0) : fin a / fin b = fin (a / b) := by
  show div (fin a) (fin b) = fin (a / b)
  simp [div, h]

@[simp] theorem fin_blt (a b : ℚ) : blt (fin a) (fin b) = decide (a < b) := rfl

@[simp] theorem fin_ble (a b : ℚ) : ble (fin a) (fin b) = decide (a ≤ b) := rfl

@[simp] theorem ninf_blt_fin (a : ℚ) : blt ninf (fin a) = true := rfl

@[simp] theorem fin_max (a b : ℚ) : max (fin a) (fin b) = fin (Max.max a b) := by
  by_cases h : a < b
  · simp [max, blt, h, max_eq_right h.le]
  · simp [max, blt, h, max_eq_left (not_lt.mp h)]

end JSNum

namespace BacktestService

theorem ledgerStateFrom_cons (s : Option Bool) (t : Trade) (l : List Trade) :
    ledgerStateFrom s (t :: l) = ledgerStateFrom (stepAct s t.action) l := rfl

theorem ledgerState_append (l : List Trade) (t : Trade) :
    ledgerState (l ++ [t]) = stepAct (ledgerState l) t.action := by
  simp [ledgerState, ledgerStateFrom, List.foldl_append]

theorem ledgerStateFrom_bot (l : List Trade) :
    ledgerStateFrom Option.none l = Option.none := by
  induction l with
  | nil => rfl
  | cons t l ih =>
      rw [ledgerStateFrom_cons]
      have : stepAct Option.none t.action = Option.none := by
        cases t.action <;> rfl
      rw [this, ih]

/-- A ledger whose replay from the closed state ends in the closed state
decomposes into OPEN/CLOSE pairs. -/
theorem pairedChunks_of_ledgerState (l : List Trade) (h : ledgerState l = Option.some false) :
    PairedChunks l := by
  match l with
  | [] => exact PairedChunks.nil
  | [t] =>
      exfalso
      rw [ledgerState, ledgerStateFrom_cons] at h
      cases ht : t.action <;> rw [ht] at h <;> simp [stepAct, ledgerStateFrom] at h
  | o :: c :: rest =>
      rw [ledgerState, ledgerStateFrom_cons] at h
      cases ho : o.action <;> rw [ho] at h
      · rw [show stepAct (Option.some false) TradeAction.OPEN = Option.some true from rfl,
          ledgerStateFrom_cons] at h
        cases hc : c.action <;> rw [hc] at h
        · rw [show stepAct (Option.some true) TradeAction.OPEN = Option.none from rfl,
            ledgerStateFrom_bot] at h
          exact absurd h (by simp)
        · exact PairedChunks.cons ho hc (pairedChunks_of_ledgerState rest h)
      · rw [show stepAct (Option.some false) TradeAction.CLOSE = Option.none from rfl,
          ledgerStateFrom_bot] at h
        exact absurd h (by simp)

theorem pairedChunks_length (l : List Trade) (h : PairedChunks l) :
    l.length = 2 * countCloseRecords l := by
  induction h with
  | nil => rfl
  | @cons o c rest ho hc _ ih =>
      have po : (o.action == TradeAction.CLOSE) = false := by rw [ho]; rfl
      have pc : (c.action == TradeAction.CLOSE) = true := by rw [hc]; rfl
      simp only [countCloseRecords, List.filter_cons, po, pc] at ih ⊢
      simp only [if_true, Bool.false_eq_true, if_false, List.length_cons] at ih ⊢
      omega

@[simp] theorem createTradeRecord_action (p : Position) (a : TradeAction) :
    (createTradeRecord p a).action = a := rfl

@[simp] theorem stepAct_open : stepAct (Option.some false) TradeAction.OPEN = Option.some true := rfl

@[simp] theorem stepAct_close : stepAct (Option.some true) TradeAction.CLOSE = Option.some false := rfl

theorem ledgerState_append_two (l : List Trade) (a b : Trade) :
    ledgerState (l ++ [a, b]) = stepAct (stepAct (ledgerState l) a.action) b.action := by
  simp [ledgerState, ledgerStateFrom, List.foldl_append]

/-- The replay-loop invariant: the ledger built so far replays to exactly
the current open/closed position state. -/
theorem stepCandle_ledgerState (strategy : StrategyFn) (riskStrategy : RiskFn)
    (rp : RiskParameters) (fees : JSNum) (st : LoopState) (candle : MarketData)
    (h : ledgerState st.trades = Option.some st.position.isSome) :
    ledgerState (stepCandle strategy riskStrategy rp fees st candle).trades
      = Option.some (stepCandle strategy riskStrategy rp fees st candle).position.isSome := by
  by_cases hcond : (strategy candle = TradeSignal.long ∨ strategy candle = TradeSignal.short)
      ∧ st.position = Option.none
  · rw [hcond.2] at h
    simp only [Option.isSome_none] at h
    by_cases hsc : shouldClosePosition
        (openPosition (strategy candle) (riskStrategy (strategy candle) st.balance
          { rp with entryPrice := candle.price }) candle) candle = true
    · simp [stepCandle, hcond, hsc, ledgerState_append, ledgerState_append_two, h]
    · simp [stepCandle, hcond, hsc, ledgerState_append, h]
  · cases hp : st.position with
    | none =>
        rw [hp] at h
        simp only [Option.isSome_none] at h
        have hd : ¬(strategy candle = TradeSignal.long ∨ strategy candle = TradeSignal.short) :=
          fun hdj => hcond ⟨hdj, hp⟩
        simp [stepCandle, hd, hp, h]
    | some p =>
        rw [hp] at h
        simp only [Option.isSome_some] at h
        by_cases hsc : shouldClosePosition p candle = true
        · simp [stepCandle, hcond, hp, hsc, ledgerState_append, h]
        · simp [stepCandle, hcond, hp, hsc, ledgerState_append, h]

theorem foldl_stepCandle_ledgerState (strategy : StrategyFn) (riskStrategy : RiskFn)
    (rp : RiskParameters) (fees : JSNum) :
    ∀ (l : List MarketData) (st : LoopState),
      ledgerState st.trades = Option.some st.position.isSome →
      ledgerState (l.foldl (stepCandle strategy riskStrategy rp fees) st).trades
        = Option.some (l.foldl (stepCandle strategy riskStrategy rp fees) st).position.isSome := by
  intro l
  induction l with
  | nil => intro st h; exact h
  | cons c l ih =>
      intro st h
      exact ih _ (stepCandle_ledgerState strategy riskStrategy rp fees st c h)

/-- After `runBacktest`'s loop and forced liquidation, no position remains
open and the ledger replays to the closed state. -/
theorem runBacktestAux_ledgerState (strategy : StrategyFn) (riskStrategy : RiskFn)
    (config : BacktestConfig) :
    (runBacktestAux strategy riskStrategy config).position = Option.none ∧
    ledgerState (runBacktestAux strategy riskStrategy config).trades = Option.some false := by
  have hInv := foldl_stepCandle_ledgerState strategy riskStrategy config.riskParams config.fees
    config.data
    { balance := config.initialBalance, trades := [], position := Option.none, calls := [] }
    (by rfl)
  simp only [runBacktestAux]
  split
  · rename_i p heq
    split
    · rename_i lastCandle heq2
      rw [heq, Option.isSome_some] at hInv
      constructor
      · rfl
      · rw [ledgerState_append, createTradeRecord_action, hInv, stepAct_close]
    · rename_i heq2
      exfalso
      have hdata : config.data = [] := List.getLast?_eq_none_iff.mp heq2
      rw [hdata] at heq
      simp only [List.foldl_nil] at heq
      exact absurd heq (by simp)
  · rename_i heq
    rw [heq, Option.isSome_none] at hInv
    exact ⟨heq, hInv⟩

end BacktestService

namespace BacktestService

theorem runBacktest_trades (strategy : StrategyFn) (riskStrategy : RiskFn)
    (config : BacktestConfig) :
    (runBacktest strategy riskStrategy config).trades
      = (runBacktestAux strategy riskStrategy config).trades := rfl

theorem runBacktest_totalTrades (strategy : StrategyFn) (riskStrategy : RiskFn)
    (config : BacktestConfig) :
    (runBacktest strategy riskStrategy config).totalTrades
      = JSNum.fin (((runBacktestAux strategy riskStrategy config).trades.length : ℚ)) / (2 : JSNum) := rfl

end BacktestService

/-- Claim C4: for every configuration with a non-empty data sequence (the
embedding's plugins are total functions, so "plugins do not raise" always
holds), the ledger returned by `runBacktest` has even length and
decomposes into consecutive OPEN/CLOSE pairs — every OPEN is paired with
exactly one CLOSE at or after it — and after the loop plus the forced
end-of-data liquidation no position remains open. -/
theorem ledger_even_and_closed (strategy : StrategyFn) (riskStrategy : RiskFn)
    (config : BacktestConfig) (_hne : config.data ≠ []) :
    Even (BacktestService.runBacktest strategy riskStrategy config).trades.length ∧
    BacktestService.PairedChunks (BacktestService.runBacktest strategy riskStrategy config).trades ∧
    (BacktestService.runBacktestAux strategy riskStrategy config).position = Option.none := by
  obtain ⟨hpos, hled⟩ := BacktestService.runBacktestAux_ledgerState strategy riskStrategy config
  have hpaired := BacktestService.pairedChunks_of_ledgerState _ hled
  rw [BacktestService.runBacktest_trades]
  refine ⟨?_, hpaired, hpos⟩
  rw [BacktestService.pairedChunks_length _ hpaired]
  exact even_two_mul _

/-- Witness for C4 at a concrete two-candle configuration. -/
theorem ledger_even_and_closed_witness :
    cfgTwoFlat.data ≠ [] ∧
    (Even (BacktestService.runBacktest alwaysLong FixedPercentRiskStrategy.execute cfgTwoFlat).trades.length ∧
     BacktestService.PairedChunks
       (BacktestService.runBacktest alwaysLong FixedPercentRiskStrategy.execute cfgTwoFlat).trades ∧
     (BacktestService.runBacktestAux alwaysLong FixedPercentRiskStrategy.execute cfgTwoFlat).position
       = Option.none) :=
  ⟨by decide,
   ledger_even_and_closed alwaysLong FixedPercentRiskStrategy.execute cfgTwoFlat (by decide)⟩

/-- Claim C1: in every completed run, the `totalTrades` field of the
returned `BacktestResult` equals the number of CLOSE records in the
ledger.  (The code computes `trades.length / 2`; because the ledger is
always well-paired this value coincides with the CLOSE count.) -/
theorem totalTrades_counts_close_events (strategy : StrategyFn) (riskStrategy : RiskFn)
    (config : BacktestConfig) :
    (BacktestService.runBacktest strategy riskStrategy config).totalTrades
      = JSNum.fin ((BacktestService.countCloseRecords
          (BacktestService.runBacktest strategy riskStrategy config).trades : ℚ)) := by
  obtain ⟨hpos, hled⟩ := BacktestService.runBacktestAux_ledgerState strategy riskStrategy config
  have hpaired := BacktestService.pairedChunks_of_ledgerState _ hled
  have hlen := BacktestService.pairedChunks_length _ hpaired
  rw [BacktestService.runBacktest_totalTrades, BacktestService.runBacktest_trades, hlen]
  have h2 : (2 : JSNum) = JSNum.fin (2 : ℚ) := by
    show JSNum.fin _ = _
    norm_num
  rw [h2, JSNum.fin_div _ _ (by norm_num : (2:ℚ) ≠ 0)]
  congr 1
  push_cast
  ring

namespace JSNum

theorem zero_def : (0 : JSNum) = JSNum.fin (0 : ℚ) := by
  show JSNum.fin _ = _
  norm_num

end JSNum

namespace BacktestService

@[simp] theorem createTradeRecord_pnl_open (p : Position) :
    (createTradeRecord p TradeAction.OPEN).pnl = (0 : JSNum) := rfl

@[simp] theorem createTradeRecord_pnl_close (p : Position) :
    (createTradeRecord p TradeAction.CLOSE).pnl = p.pnl.getD (0 : JSNum) := rfl

@[simp] theorem openPosition_pnl (s : TradeSignal) (r : RiskResult) (c : MarketData) :
    (openPosition s r c).pnl = Option.none := rfl

@[simp] theorem updateAndClosePosition_pnl (p : Position) (c : MarketData) (b : JSNum) :
    (updateAndClosePosition p c b).pnl = p.pnl := rfl

end BacktestService

namespace BacktestService

/-- Evaluation of `stepCandle` when no position is open and the strategy signal is
neither long nor short: only the call log grows. -/
theorem stepCandle_eq_noop (strategy : StrategyFn) (riskStrategy : RiskFn)
    (rp : RiskParameters) (fees : JSNum) (st : LoopState) (candle : MarketData)
    (hd : ¬(strategy candle = TradeSignal.long ∨ strategy candle = TradeSignal.short))
    (hp : st.position = Option.none) :
    stepCandle strategy riskStrategy rp fees st candle =
      { st with calls := st.calls ++ [{ timestamp := candle.timestamp, openAtStart := false }] } := by
  simp [stepCandle, hd, hp]

/-- Evaluation of `stepCandle` when a position is opened and not closed on the same
candle. -/
theorem stepCandle_eq_open_stay (strategy : StrategyFn) (riskStrategy : RiskFn)
    (rp : RiskParameters) (fees : JSNum) (st : LoopState) (candle : MarketData)
    (hsig : strategy candle = TradeSignal.long ∨ strategy candle = TradeSignal.short)
    (hp : st.position = Option.none)
    (hsc : shouldClosePosition (openPosition (strategy candle)
        (riskStrategy (strategy candle) st.balance { rp with entryPrice := candle.price }) candle)
        candle = false) :
    stepCandle strategy riskStrategy rp fees st candle =
      { balance := st.balance,
        trades := st.trades ++ [createTradeRecord (openPosition (strategy candle)
          (riskStrategy (strategy candle) st.balance { rp with entryPrice := candle.price }) candle)
          TradeAction.OPEN],
        position := Option.some (openPosition (strategy candle)
          (riskStrategy (strategy candle) st.balance { rp with entryPrice := candle.price }) candle),
        calls := st.calls ++ [{ timestamp := candle.timestamp, openAtStart := false }] } := by
  simp [stepCandle, hsig, hp, hsc]

/-- Evaluation of `stepCandle` when a position is opened and immediately closed on the
same candle. -/
theorem stepCandle_eq_open_close (strategy : StrategyFn) (riskStrategy : RiskFn)
    (rp : RiskParameters) (fees : JSNum) (st : LoopState) (candle : MarketData)
    (hsig : strategy candle = TradeSignal.long ∨ strategy candle = TradeSignal.short)
    (hp : st.position = Option.none)
    (hsc : shouldClosePosition (openPosition (strategy candle)
        (riskStrategy (strategy candle) st.balance { rp with entryPrice := candle.price }) candle)
        candle = true) :
    stepCandle strategy riskStrategy rp fees st candle =
      { balance := (closePosition (openPosition (strategy candle)
          (riskStrategy (strategy candle) st.balance { rp with entryPrice := candle.price }) candle)
          candle fees st.balance).newBalance,
        trades := st.trades ++ [createTradeRecord (openPosition (strategy candle)
          (riskStrategy (strategy candle) st.balance { rp with entryPrice := candle.price }) candle)
          TradeAction.OPEN,
          createTradeRecord (updateAndClosePosition (openPosition (strategy candle)
            (riskStrategy (strategy candle) st.balance { rp with entryPrice := candle.price }) candle)
            candle (closePosition (openPosition (strategy candle)
              (riskStrategy (strategy candle) st.balance { rp with entryPrice := candle.price })
              candle) candle fees st.balance).newBalance)
          TradeAction.CLOSE],
        position := Option.none,
        calls := st.calls ++ [{ timestamp := candle.timestamp, openAtStart := false }] } := by
  simp [stepCandle, hsig, hp, hsc]

/-- Evaluation of `stepCandle` when a position is open and the close trigger fires. -/
theorem stepCandle_eq_close (strategy : StrategyFn) (riskStrategy : RiskFn)
    (rp : RiskParameters) (fees : JSNum) (st : LoopState) (candle : MarketData) (p : Position)
    (hp : st.position = Option.some p)
    (hsc : shouldClosePosition p candle = true) :
    stepCandle strategy riskStrategy rp fees st candle =
      { balance := (closePosition p candle fees st.balance).newBalance,
        trades := st.trades ++ [createTradeRecord
          (updateAndClosePosition p candle (closePosition p candle fees st.balance).newBalance)
          TradeAction.CLOSE],
        position := Option.none,
        calls := st.calls ++ [{ timestamp := candle.timestamp, openAtStart := true }] } := by
  simp [stepCandle, hp, hsc]

/-- Evaluation of `stepCandle` when a position is open and the close trigger does not
fire: only the call log grows. -/
theorem stepCandle_eq_stay (strategy : StrategyFn) (riskStrategy : RiskFn)
    (rp : RiskParameters) (fees : JSNum) (st : LoopState) (candle : MarketData) (p : Position)
    (hp : st.position = Option.some p)
    (hsc : shouldClosePosition p candle = false) :
    stepCandle strategy riskStrategy rp fees st candle =
      { balance := st.balance,
        trades := st.trades,
        position := Option.some p,
        calls := st.calls ++ [{ timestamp := candle.timestamp, openAtStart := true }] } := by
  simp [stepCandle, hp, hsc]

end BacktestService

namespace BacktestService

/-- The `pnl` invariant: `closePosition` computes a PnL but only returns
the new balance; no `Position` ever has its `pnl` field assigned, so
every ledger record's `pnl` is `?? 0`-defaulted to 0. -/
theorem stepCandle_pnl (strategy : StrategyFn) (riskStrategy : RiskFn)
    (rp : RiskParameters) (fees : JSNum) (st : LoopState) (candle : MarketData)
    (h1 : ∀ t ∈ st.trades, t.pnl = JSNum.fin 0)
    (h2 : ∀ p, st.position = Option.some p → p.pnl = Option.none) :
    (∀ t ∈ (stepCandle strategy riskStrategy rp fees st candle).trades, t.pnl = JSNum.fin 0) ∧
    (∀ p, (stepCandle strategy riskStrategy rp fees st candle).position = Option.some p →
      p.pnl = Option.none) := by
  have hz : (0 : JSNum) = JSNum.fin 0 := JSNum.zero_def
  cases hp : st.position with
  | none =>
      by_cases hsig : strategy candle = TradeSignal.long ∨ strategy candle = TradeSignal.short
      · cases hsc : shouldClosePosition (openPosition (strategy candle)
            (riskStrategy (strategy candle) st.balance { rp with entryPrice := candle.price })
            candle) candle with
        | false =>
            rw [stepCandle_eq_open_stay strategy riskStrategy rp fees st candle hsig hp hsc]
            constructor
            · intro t ht
              rcases List.mem_append.mp ht with ht | ht
              · exact h1 t ht
              · rw [List.mem_singleton.mp ht, createTradeRecord_pnl_open, hz]
            · intro q hq
              rw [← Option.some_inj.mp hq, openPosition_pnl]
        | true =>
            rw [stepCandle_eq_open_close strategy riskStrategy rp fees st candle hsig hp hsc]
            constructor
            · intro t ht
              rcases List.mem_append.mp ht with ht | ht
              · exact h1 t ht
              · simp only [List.mem_cons, List.not_mem_nil, or_false] at ht
                rcases ht with ht | ht
                · rw [ht, createTradeRecord_pnl_open, hz]
                · rw [ht, createTradeRecord_pnl_close,
                    updateAndClosePosition_pnl, openPosition_pnl, Option.getD_none, hz]
            · intro q hq
              exact absurd hq (by simp)
      · rw [stepCandle_eq_noop strategy riskStrategy rp fees st candle hsig hp]
        exact ⟨h1, fun q hq => absurd hq (by simp [hp])⟩
  | some p =>
      cases hsc : shouldClosePosition p candle with
      | true =>
          rw [stepCandle_eq_close strategy riskStrategy rp fees st candle p hp hsc]
          constructor
          · intro t ht
            rcases List.mem_append.mp ht with ht | ht
            · exact h1 t ht
            · rw [List.mem_singleton.mp ht, createTradeRecord_pnl_close,
                updateAndClosePosition_pnl, h2 p hp, Option.getD_none, hz]
          · intro q hq
            exact absurd hq (by simp)
      | false =>
          rw [stepCandle_eq_stay strategy riskStrategy rp fees st candle p hp hsc]
          exact ⟨h1, fun q hq => (Option.some_inj.mp hq) ▸ h2 p hp⟩

theorem foldl_stepCandle_pnl (strategy : StrategyFn) (riskStrategy : RiskFn)
    (rp : RiskParameters) (fees : JSNum) :
    ∀ (l : List MarketData) (st : LoopState),
      (∀ t ∈ st.trades, t.pnl = JSNum.fin 0) →
      (∀ p, st.position = Option.some p → p.pnl = Option.none) →
      (∀ t ∈ (l.foldl (stepCandle strategy riskStrategy rp fees) st).trades, t.pnl = JSNum.fin 0) ∧
      (∀ p, (l.foldl (stepCandle strategy riskStrategy rp fees) st).position = Option.some p →
        p.pnl = Option.none) := by
  intro l
  induction l with
  | nil => intro st h1 h2; exact ⟨h1, h2⟩
  | cons c l ih =>
      intro st h1 h2
      obtain ⟨h1', h2'⟩ := stepCandle_pnl strategy riskStrategy rp fees st c h1 h2
      exact ih _ h1' h2'

/-- Every trade record appended during a run, forced liquidation
included, has `pnl = 0`. -/
theorem runBacktestAux_pnl (strategy : StrategyFn) (riskStrategy : RiskFn)
    (config : BacktestConfig) :
    ∀ t ∈ (runBacktestAux strategy riskStrategy config).trades, t.pnl = JSNum.fin 0 := by
  have hz : (0 : JSNum) = JSNum.fin 0 := JSNum.zero_def
  obtain ⟨h1, h2⟩ := foldl_stepCandle_pnl strategy riskStrategy config.riskParams config.fees
    config.data
    { balance := config.initialBalance, trades := [], position := Option.none, calls := [] }
    (by intro t ht; exact absurd ht (List.not_mem_nil t))
    (by intro p hp; exact absurd hp (by simp))
  simp only [runBacktestAux]
  split
  · rename_i p heq
    split
    · rename_i lastCandle heq2
      intro t ht
      rcases List.mem_append.mp ht with ht | ht
      · exact h1 t ht
      · rw [List.mem_singleton.mp ht, createTradeRecord_pnl_close,
          updateAndClosePosition_pnl, h2 p heq, Option.getD_none, hz]
    · exact h1
  · exact h1

end BacktestService

namespace BacktestService

theorem runBacktest_winningTrades (strategy : StrategyFn) (riskStrategy : RiskFn)
    (config : BacktestConfig) :
    (runBacktest strategy riskStrategy config).winningTrades
      = JSNum.fin ((((runBacktestAux strategy riskStrategy config).trades.filter
          (fun t => t.action == TradeAction.CLOSE && JSNum.bgt t.pnl (0 : JSNum))).length : ℚ)) := rfl

end BacktestService

/-- Claim C2: every trade record the engine appends to the ledger — every
CLOSE record included — has `pnl = 0`, because `closePosition`'s computed
PnL is never stored on the `Position` and `createTradeRecord` falls back
to 0 when `position.pnl` is absent; consequently `winningTrades = 0` in
every `BacktestResult`, no matter how profitable the closed positions
were. -/
theorem all_pnl_zero_and_no_winning_trades (strategy : StrategyFn) (riskStrategy : RiskFn)
    (config : BacktestConfig) :
    (∀ t ∈ (BacktestService.runBacktest strategy riskStrategy config).trades, t.pnl = JSNum.fin 0) ∧
    (BacktestService.runBacktest strategy riskStrategy config).winningTrades = JSNum.fin 0 := by
  have hall := BacktestService.runBacktestAux_pnl strategy riskStrategy config
  constructor
  · rw [BacktestService.runBacktest_trades]
    exact hall
  · rw [BacktestService.runBacktest_winningTrades]
    have hfil : (BacktestService.runBacktestAux strategy riskStrategy config).trades.filter
        (fun t => t.action == TradeAction.CLOSE && JSNum.bgt t.pnl (0 : JSNum)) = [] := by
      apply List.filter_eq_nil_iff.mpr
      intro t ht
      rw [hall t ht]
      simp [JSNum.bgt, JSNum.zero_def]
    rw [hfil]
    simp

/-- Witness-style instantiation of C2 at a concrete run (C2's statement
quantifies only over data, but the membership implication is discharged
here at a concrete ledger record). -/
theorem all_pnl_zero_and_no_winning_trades_witness :
    (BacktestService.runBacktest alwaysLong FixedPercentRiskStrategy.execute cfgTwoFlat).winningTrades
      = JSNum.fin 0 :=
  (all_pnl_zero_and_no_winning_trades alwaysLong FixedPercentRiskStrategy.execute cfgTwoFlat).2

/-- Claim C3 (code-bug evidence): a run in which the strategy never emits
long or short has `totalTrades = 0` as claimed, but `winRate` is NaN, not
0 — the code divides `winningTrades / totalTrades` unguarded, so the
claimed "winRate is a real number, never NaN" fails.  Evaluated at a
concrete one-candle configuration whose strategy always returns the
no-action signal. -/
theorem zero_trade_run_yields_nan_winrate :
    (BacktestService.runBacktest neverSignal FixedPercentRiskStrategy.execute cfgTwoFlat).totalTrades
      = JSNum.fin 0 ∧
    (BacktestService.runBacktest neverSignal FixedPercentRiskStrategy.execute cfgTwoFlat).winRate
      = JSNum.nan := by
  constructor
  · decide
  · decide

/-- Claim C5 (code-bug evidence): `runBacktest` performs no configuration
validation at all.  For the empty-data configuration it does not fail
with a ConfigurationError: the loop body never runs (no strategy call is
logged), and a fully formed `BacktestResult` (with NaN `winRate`) is
returned — which the service then persists. -/
theorem empty_data_config_runs_to_completion :
    (BacktestService.runBacktestAux alwaysLong FixedPercentRiskStrategy.execute cfgEmptyData).calls
      = [] ∧
    (BacktestService.runBacktest alwaysLong FixedPercentRiskStrategy.execute cfgEmptyData).trades
      = [] ∧
    (BacktestService.runBacktest alwaysLong FixedPercentRiskStrategy.execute cfgEmptyData).finalBalance
      = JSNum.fin 10000 ∧
    (BacktestService.runBacktest alwaysLong FixedPercentRiskStrategy.execute cfgEmptyData).winRate
      = JSNum.nan := by
  refine ⟨by decide, by decide, by decide, by decide⟩

namespace BacktestService

/-- The strategy service is invoked exactly once per loop iteration, before
any guard is consulted. -/
theorem stepCandle_calls (strategy : StrategyFn) (riskStrategy : RiskFn)
    (rp : RiskParameters) (fees : JSNum) (st : LoopState) (candle : MarketData) :
    (stepCandle strategy riskStrategy rp fees st candle).calls
      = st.calls ++ [{ timestamp := candle.timestamp, openAtStart := st.position.isSome }] := by
  cases hp : st.position with
  | none =>
      by_cases hsig : strategy candle = TradeSignal.long ∨ strategy candle = TradeSignal.short
      · cases hsc : shouldClosePosition (openPosition (strategy candle)
            (riskStrategy (strategy candle) st.balance { rp with entryPrice := candle.price })
            candle) candle with
        | false =>
            rw [stepCandle_eq_open_stay strategy riskStrategy rp fees st candle hsig hp hsc]
            rfl
        | true =>
            rw [stepCandle_eq_open_close strategy riskStrategy rp fees st candle hsig hp hsc]
            rfl
      · rw [stepCandle_eq_noop strategy riskStrategy rp fees st candle hsig hp]
        rfl
  | some p =>
      cases hsc : shouldClosePosition p candle with
      | true =>
          rw [stepCandle_eq_close strategy riskStrategy rp fees st candle p hp hsc]
          rfl
      | false =>
          rw [stepCandle_eq_stay strategy riskStrategy rp fees st candle p hp hsc]
          rfl

theorem foldl_stepCandle_calls_length (strategy : StrategyFn) (riskStrategy : RiskFn)
    (rp : RiskParameters) (fees : JSNum) :
    ∀ (l : List MarketData) (st : LoopState),
      (l.foldl (stepCandle strategy riskStrategy rp fees) st).calls.length
        = st.calls.length + l.length := by
  intro l
  induction l with
  | nil => intro st; simp
  | cons c l ih =>
      intro st
      rw [List.foldl_cons, ih]
      rw [stepCandle_calls strategy riskStrategy rp fees st c]
      simp only [List.length_append, List.length_cons, List.length_nil]
      omega

/-- One strategy execution is logged per data point; the forced
end-of-run liquidation does not consult the strategy. -/
theorem runBacktestAux_calls_length (strategy : StrategyFn) (riskStrategy : RiskFn)
    (config : BacktestConfig) :
    (runBacktestAux strategy riskStrategy config).calls.length = config.data.length := by
  have hlen := foldl_stepCandle_calls_length strategy riskStrategy config.riskParams config.fees
    config.data
    { balance := config.initialBalance, trades := [], position := Option.none, calls := [] }
  simp only [List.length_nil, Nat.zero_add] at hlen
  simp only [runBacktestAux]
  split
  · split
    · exact hlen
    · exact hlen
  · exact hlen

end BacktestService

/-- Claim C7 (counterexample): on a two-candle run whose first candle opens
a long position that is still open at the second candle, the engine still
invokes the strategy at the second candle: the strategy-call log reads
`[openAtStart = false, openAtStart = true]`, refuting "no strategy call
occurs in an iteration that starts with an open position" — the code runs
`executeStrategy` before consulting the `!position` guard. -/
theorem strategy_called_while_position_open :
    ((BacktestService.runBacktestAux alwaysLong FixedPercentRiskStrategy.execute cfgTwoFlat).calls.map
      BacktestService.StratCall.openAtStart) = [false, true] := by
  decide

/-- Claim C7 (amended): the strategy is executed at *every* data point —
exactly `data.length` invocations per run, position open or not — but a
signal delivered while a position is open has no effect: an iteration
that starts with an open position produces an identical loop state for
any two strategies. -/
theorem strategy_signal_ignored_when_position_open (strategy : StrategyFn)
    (riskStrategy : RiskFn) (config : BacktestConfig) :
    (BacktestService.runBacktestAux strategy riskStrategy config).calls.length
      = config.data.length ∧
    ∀ (strat2 : StrategyFn) (rp : RiskParameters) (fees : JSNum)
      (st : BacktestService.LoopState) (candle : MarketData),
      st.position.isSome = true →
      BacktestService.stepCandle strategy riskStrategy rp fees st candle
        = BacktestService.stepCandle strat2 riskStrategy rp fees st candle := by
  constructor
  · exact BacktestService.runBacktestAux_calls_length strategy riskStrategy config
  · intro strat2 rp fees st candle hopen
    obtain ⟨p, hp⟩ := Option.isSome_iff_exists.mp hopen
    cases hsc : BacktestService.shouldClosePosition p candle with
    | true =>
        rw [BacktestService.stepCandle_eq_close strategy riskStrategy rp fees st candle p hp hsc,
          BacktestService.stepCandle_eq_close strat2 riskStrategy rp fees st candle p hp hsc]
    | false =>
        rw [BacktestService.stepCandle_eq_stay strategy riskStrategy rp fees st candle p hp hsc,
          BacktestService.stepCandle_eq_stay strat2 riskStrategy rp fees st candle p hp hsc]

/-- Witness for the amended C7 at a concrete open-position state: the
iteration outcome is the same whether the strategy keeps signalling long
or signals nothing. -/
theorem strategy_signal_ignored_when_position_open_witness :
    (BacktestService.runBacktestAux alwaysLong FixedPercentRiskStrategy.execute cfgTwoFlat).calls.length
      = cfgTwoFlat.data.length ∧
    BacktestService.stepCandle alwaysLong FixedPercentRiskStrategy.execute cfgTwoFlat.riskParams
      cfgTwoFlat.fees openLongState (candleAt 2 100)
      = BacktestService.stepCandle neverSignal FixedPercentRiskStrategy.execute cfgTwoFlat.riskParams
        cfgTwoFlat.fees openLongState (candleAt 2 100) :=
  ⟨(strategy_signal_ignored_when_position_open alwaysLong FixedPercentRiskStrategy.execute cfgTwoFlat).1,
   (strategy_signal_ignored_when_position_open alwaysLong FixedPercentRiskStrategy.execute cfgTwoFlat).2
     neverSignal cfgTwoFlat.riskParams cfgTwoFlat.fees openLongState (candleAt 2 100) (by decide)⟩

namespace JSNum

@[simp] theorem abs_fin (a : ℚ) : abs (fin a) = fin |a| := rfl

theorem ofNat_def (n : Nat) [n.AtLeastTwo] : (OfNat.ofNat n : JSNum) = JSNum.fin (OfNat.ofNat n : ℚ) :=
  congrArg JSNum.fin Nat.cast_ofNat

end JSNum

/-- Claim C8: the close transition computes realized PnL =
(exitPrice − entryPrice) × size for a long position and
(entryPrice − exitPrice) × size otherwise, fee =
feeRate × size × (entryPrice + exitPrice), and new balance =
old balance + PnL − fee; in particular a closed long with entry 100,
exit 110, size 1 and feeRate 0.001 changes the balance by exactly
9.79. -/
theorem closePosition_pnl_fee_balance (pos : Position) (candle : MarketData)
    (entry exitP size feeRate balance : ℚ)
    (he : pos.entryPrice = JSNum.fin entry) (hs : pos.size = JSNum.fin size)
    (hc : candle.price = JSNum.fin exitP) :
    (pos.type = TradeSignal.long →
      (BacktestService.closePosition pos candle (JSNum.fin feeRate) (JSNum.fin balance)).newBalance
        = JSNum.fin (balance + (exitP - entry) * size - feeRate * size * (entry + exitP))) ∧
    (pos.type ≠ TradeSignal.long →
      (BacktestService.closePosition pos candle (JSNum.fin feeRate) (JSNum.fin balance)).newBalance
        = JSNum.fin (balance + (entry - exitP) * size - feeRate * size * (entry + exitP))) ∧
    (pos.type = TradeSignal.long → entry = 100 → exitP = 110 → size = 1 → feeRate = 1/1000 →
      (BacktestService.closePosition pos candle (JSNum.fin feeRate) (JSNum.fin balance)).newBalance
        = JSNum.fin (balance + 979/100)) := by
  refine ⟨?_, ?_, ?_⟩
  · intro hlong
    simp [BacktestService.closePosition, hlong, he, hs, hc]
  · intro hshort
    simp [BacktestService.closePosition, hshort, he, hs, hc]
  · intro hlong h1 h2 h3 h4
    subst h1 h2 h3 h4
    simp [BacktestService.closePosition, hlong, he, hs, hc]
    ring_nf

/-- Witness for C8: closing a long position with entry 100 and size 1
(sized by the fixed-percent rule from balance 100, riskPercent 2,
stop 98) at exit price 110 with fee rate 0.001 and account balance 10000
yields exactly 10009.79. -/
theorem closePosition_pnl_fee_balance_witness :
    (BacktestService.closePosition
        (BacktestService.openPosition TradeSignal.long
          (FixedPercentRiskStrategy.execute TradeSignal.long (JSNum.fin 100)
            { riskPercent := JSNum.fin 2, entryPrice := JSNum.fin 100,
              stopLossPrice := JSNum.fin 98 })
          (candleAt 1 100))
        (candleAt 2 110) (JSNum.fin (1/1000)) (JSNum.fin 10000)).newBalance
      = JSNum.fin (10000 + 979/100) :=
  (closePosition_pnl_fee_balance _ (candleAt 2 110) 100 110 1 (1/1000) 10000
    (by decide) (by decide) (by decide)).2.2 (by decide) rfl rfl rfl rfl

/-- Evaluation of the fixed-percent sizing rule on finite inputs with
`entryPrice` different from `stopLossPrice`. -/
theorem FixedPercentRiskStrategy.execute_fin (signal : TradeSignal) (balance rp entry stop : ℚ)
    (hne : entry ≠ stop) :
    FixedPercentRiskStrategy.execute signal (JSNum.fin balance)
        { riskPercent := JSNum.fin rp, entryPrice := JSNum.fin entry,
          stopLossPrice := JSNum.fin stop }
      = { positionSize := JSNum.fin (balance * rp / 100 / |entry - stop|),
          stopLoss := JSNum.fin stop,
          takeProfit := JSNum.fin (if signal = TradeSignal.long then entry + |entry - stop| * 2
            else entry - |entry - stop| * 2),
          riskAmount := JSNum.fin (balance * rp / 100),
          riskPercent := JSNum.fin rp,
          riskRewardRatio := JSNum.fin 2 } := by
  have hd2 : |entry - stop| ≠ 0 := abs_ne_zero.mpr (sub_ne_zero.mpr hne)
  simp only [FixedPercentRiskStrategy.execute, JSNum.ofNat_def, JSNum.fin_mul, JSNum.fin_sub,
    JSNum.abs_fin]
  rw [JSNum.fin_div _ _ (by norm_num : (100:ℚ) ≠ 0), JSNum.fin_div _ _ hd2]
  by_cases hsig : signal = TradeSignal.long
  · simp [hsig]
  · simp [hsig]

/-- Claim C9: the fixed-percent risk rule returns
riskAmount = balance × riskPercent / 100,
positionSize = riskAmount / |entryPrice − stopLossPrice|,
stopLoss = stopLossPrice, and takeProfit = entryPrice ± the entry-to-stop
distance × 2 depending on the signal direction, with the risk-reward
ratio fixed at 2; in particular balance 10000, riskPercent 2, entry 100,
stop 98 yields riskAmount 200, positionSize 100 and, for long,
takeProfit 104. -/
theorem fixed_percent_risk_formula (signal : TradeSignal) (balance rp entry stop : ℚ)
    (hne : entry ≠ stop) :
    FixedPercentRiskStrategy.execute signal (JSNum.fin balance)
        { riskPercent := JSNum.fin rp, entryPrice := JSNum.fin entry,
          stopLossPrice := JSNum.fin stop }
      = { positionSize := JSNum.fin (balance * rp / 100 / |entry - stop|),
          stopLoss := JSNum.fin stop,
          takeProfit := JSNum.fin (if signal = TradeSignal.long then entry + |entry - stop| * 2
            else entry - |entry - stop| * 2),
          riskAmount := JSNum.fin (balance * rp / 100),
          riskPercent := JSNum.fin rp,
          riskRewardRatio := JSNum.fin 2 } ∧
    (balance = 10000 → rp = 2 → entry = 100 → stop = 98 →
      (FixedPercentRiskStrategy.execute signal (JSNum.fin balance)
          { riskPercent := JSNum.fin rp, entryPrice := JSNum.fin entry,
            stopLossPrice := JSNum.fin stop }).riskAmount = JSNum.fin 200 ∧
      (FixedPercentRiskStrategy.execute signal (JSNum.fin balance)
          { riskPercent := JSNum.fin rp, entryPrice := JSNum.fin entry,
            stopLossPrice := JSNum.fin stop }).positionSize = JSNum.fin 100 ∧
      (signal = TradeSignal.long →
        (FixedPercentRiskStrategy.execute signal (JSNum.fin balance)
            { riskPercent := JSNum.fin rp, entryPrice := JSNum.fin entry,
              stopLossPrice := JSNum.fin stop }).takeProfit = JSNum.fin 104)) := by
  have hmain := FixedPercentRiskStrategy.execute_fin signal balance rp entry stop hne
  refine ⟨hmain, ?_⟩
  intro h1 h2 h3 h4
  subst h1 h2 h3 h4
  rw [hmain]
  refine ⟨?_, ?_, ?_⟩
  · show JSNum.fin _ = _
    norm_num
  · show JSNum.fin _ = _
    norm_num
  · intro hsig
    simp only [hsig, if_true]
    show JSNum.fin _ = _
    norm_num

/-- Witness for C9 at the spec's own numbers: balance 10000,
riskPercent 2, entry 100, stop 98, long. -/
theorem fixed_percent_risk_formula_witness :
    (FixedPercentRiskStrategy.execute TradeSignal.long (JSNum.fin 10000)
        { riskPercent := JSNum.fin 2, entryPrice := JSNum.fin 100,
          stopLossPrice := JSNum.fin 98 }).riskAmount = JSNum.fin 200 ∧
    (FixedPercentRiskStrategy.execute TradeSignal.long (JSNum.fin 10000)
        { riskPercent := JSNum.fin 2, entryPrice := JSNum.fin 100,
          stopLossPrice := JSNum.fin 98 }).positionSize = JSNum.fin 100 ∧
    (FixedPercentRiskStrategy.execute TradeSignal.long (JSNum.fin 10000)
        { riskPercent := JSNum.fin 2, entryPrice := JSNum.fin 100,
          stopLossPrice := JSNum.fin 98 }).takeProfit = JSNum.fin 104 := by
  obtain ⟨-, h⟩ := fixed_percent_risk_formula TradeSignal.long 10000 2 100 98 (by decide)
  obtain ⟨hra, hps, htp⟩ := h rfl rfl rfl rfl
  exact ⟨hra, hps, htp rfl⟩

/-- Claim C6 (counterexample): the risk-sizing operation cannot fail — the
code validates nothing.  With entryPrice = stopLossPrice it returns a
RiskResult whose positionSize is +Infinity instead of aborting with an
InvalidRiskParameters condition, and riskPercent 150 (far outside
(0, 100]) is accepted and used as-is. -/
theorem risk_sizing_never_fails_counterexample :
    (FixedPercentRiskStrategy.execute TradeSignal.long (JSNum.fin 10000)
        { riskPercent := JSNum.fin 2, entryPrice := JSNum.fin 100,
          stopLossPrice := JSNum.fin 100 }).positionSize = JSNum.inf ∧
    (FixedPercentRiskStrategy.execute TradeSignal.long (JSNum.fin 10000)
        { riskPercent := JSNum.fin 150, entryPrice := JSNum.fin 100,
          stopLossPrice := JSNum.fin 98 }).riskAmount = JSNum.fin 15000 :=
  ⟨by decide, by decide⟩

/-- Claim C6 (amended): the sizing operation is a total function — no
validation, no failure path — and for finite balance and riskPercent
with entryPrice ≠ stopLossPrice it does return a finite positionSize
(that half of the claim holds). -/
theorem risk_sizing_finite_when_valid (signal : TradeSignal) (balance rp entry stop : ℚ)
    (hne : entry ≠ stop) :
    (FixedPercentRiskStrategy.execute signal (JSNum.fin balance)
        { riskPercent := JSNum.fin rp, entryPrice := JSNum.fin entry,
          stopLossPrice := JSNum.fin stop }).positionSize
      = JSNum.fin (balance * rp / 100 / |entry - stop|) := by
  rw [FixedPercentRiskStrategy.execute_fin signal balance rp entry stop hne]

/-- Witness for the amended C6. -/
theorem risk_sizing_finite_when_valid_witness :
    (FixedPercentRiskStrategy.execute TradeSignal.short (JSNum.fin 10000)
        { riskPercent := JSNum.fin 150, entryPrice := JSNum.fin 100,
          stopLossPrice := JSNum.fin 98 }).positionSize
      = JSNum.fin (10000 * 150 / 100 / |100 - 98|) :=
  risk_sizing_finite_when_valid TradeSignal.short 10000 150 100 98 (by decide)

namespace BacktestService

/-- On a finite peak and a finite balance, the engine's conditional peak
update agrees with the spec's max-based running peak, and the drawdown
formulas coincide. -/
theorem mddStep_eq_specMddStep (p : ℚ) (m : JSNum) (b : ℚ) :
    mddStep (JSNum.fin p, m) (JSNum.fin b) = specMddStep (JSNum.fin p, m) (JSNum.fin b) := by
  by_cases h : p < b
  · simp [mddStep, specMddStep, JSNum.bgt, h, max_eq_right h.le]
  · simp [mddStep, specMddStep, JSNum.bgt, h, max_eq_left (not_lt.mp h)]

theorem specMddStep_fin (p : ℚ) (m : JSNum) (b : ℚ) :
    specMddStep (JSNum.fin p, m) (JSNum.fin b)
      = (JSNum.fin (Max.max p b),
         JSNum.max m ((JSNum.fin (Max.max p b) - JSNum.fin b) / JSNum.fin (Max.max p b)
           * (100 : JSNum))) := by
  simp [specMddStep]

theorem foldl_mddStep_eq_spec (bs : List JSNum) :
    ∀ (p : ℚ) (m : JSNum), (∀ b ∈ bs, ∃ q, b = JSNum.fin q) →
      bs.foldl mddStep (JSNum.fin p, m) = bs.foldl specMddStep (JSNum.fin p, m) := by
  induction bs with
  | nil => intro p m _; rfl
  | cons b bs ih =>
      intro p m h
      obtain ⟨q, hq⟩ := h b (List.mem_cons_self b bs)
      subst hq
      rw [List.foldl_cons, List.foldl_cons, mddStep_eq_specMddStep, specMddStep_fin]
      exact ih (Max.max p q) _ (fun b hb => h b (List.mem_cons_of_mem _ hb))

theorem mddStep_ninf (m : JSNum) (b : ℚ) :
    mddStep (JSNum.ninf, m) (JSNum.fin b)
      = (JSNum.fin b,
         JSNum.max m ((JSNum.fin b - JSNum.fin b) / JSNum.fin b * (100 : JSNum))) := by
  simp [mddStep, JSNum.bgt]

end BacktestService

namespace BacktestService

theorem mddStep_fin_pos (p m q : ℚ) (hp : Max.max p q ≠ 0) :
    mddStep (JSNum.fin p, JSNum.fin m) (JSNum.fin q)
      = (JSNum.fin (Max.max p q),
         JSNum.fin (Max.max m ((Max.max p q - q) / Max.max p q * 100))) := by
  have key : ∀ r : ℚ, r ≠ 0 →
      (JSNum.fin r - JSNum.fin q) / JSNum.fin r * (100 : JSNum) = JSNum.fin ((r - q) / r * 100) := by
    intro r hr
    rw [JSNum.fin_sub, JSNum.fin_div _ _ hr, JSNum.ofNat_def, JSNum.fin_mul]
  by_cases h : p < q
  · have hb : JSNum.bgt (JSNum.fin q) (JSNum.fin p) = true := by
      simp [JSNum.bgt, h]
    rw [max_eq_right h.le] at hp ⊢
    simp only [mddStep, hb, if_true]
    rw [key q hp, JSNum.fin_max]
  · have hb : JSNum.bgt (JSNum.fin q) (JSNum.fin p) = false := by
      simp [JSNum.bgt, h]
    rw [max_eq_left (not_lt.mp h)] at hp ⊢
    simp only [mddStep, hb, Bool.false_eq_true, if_false]
    rw [key p hp, JSNum.fin_max]

theorem foldl_mddStep_nonneg (bs : List JSNum) :
    ∀ (p m : ℚ), 0 < p → 0 ≤ m → (∀ b ∈ bs, ∃ q, b = JSNum.fin q ∧ 0 < q) →
      ∃ p' m', bs.foldl mddStep (JSNum.fin p, JSNum.fin m) = (JSNum.fin p', JSNum.fin m')
        ∧ 0 < p' ∧ 0 ≤ m' := by
  induction bs with
  | nil => intro p m hp hm _; exact ⟨p, m, rfl, hp, hm⟩
  | cons b bs ih =>
      intro p m hp hm h
      obtain ⟨q, hq, hqpos⟩ := h b (List.mem_cons_self b bs)
      subst hq
      have hmax : (0:ℚ) < Max.max p q := lt_max_of_lt_left hp
      rw [List.foldl_cons, mddStep_fin_pos p m q (ne_of_gt hmax)]
      apply ih
      · exact hmax
      · refine le_max_of_le_left hm
      · exact fun b hb => h b (List.mem_cons_of_mem _ hb)

end BacktestService

/-- Claim C10 (counterexample): a run is not guaranteed a maxDrawdown ≥ 0.
With riskPercent 0 the OPEN trade records balance-at-event 0 (the risk
amount), the walk's first drawdown is (0 − 0)/0 × 100 = NaN, and
`Math.max` propagates it: the returned maxDrawdown is NaN, which is not
≥ 0 under JavaScript comparison. -/
theorem maxDrawdown_nan_counterexample :
    (BacktestService.runBacktest alwaysLong FixedPercentRiskStrategy.execute cfgZeroRisk).maxDrawdown
      = JSNum.nan ∧
    JSNum.ble (JSNum.fin 0) JSNum.nan = false :=
  ⟨by decide, by decide⟩

/-- Claim C10 (amended): for every non-empty ledger whose balance-at-event
values are all finite, the engine's maxDrawdown (peak seeded with
−Infinity) equals the spec's reference walk (peak seeded with the first
recorded balance) — the engine's first conditional update erases the
−Infinity seed; and maxDrawdown ≥ 0 holds whenever the recorded balances
are moreover all positive (a balance-at-event of 0, reachable via
riskPercent 0, yields NaN instead). -/
theorem maxDrawdown_matches_spec_on_finite (trades : List Trade) :
    (trades ≠ [] → (∀ t ∈ trades, ∃ q, t.balance = JSNum.fin q) →
      BacktestService.calculateMaxDrawdown trades
        = BacktestService.specMaxDrawdown (trades.map Trade.balance)) ∧
    ((∀ t ∈ trades, ∃ q, t.balance = JSNum.fin q ∧ 0 < q) →
      JSNum.ble (JSNum.fin 0) (BacktestService.calculateMaxDrawdown trades) = true) := by
  constructor
  · intro hne hfin
    cases trades with
    | nil => exact absurd rfl hne
    | cons t ts =>
        obtain ⟨b0, hb0⟩ := hfin t (List.mem_cons_self t ts)
        simp only [BacktestService.calculateMaxDrawdown, BacktestService.specMaxDrawdown,
          List.map_cons, ← List.foldl_map Trade.balance, List.foldl_cons, hb0]
        rw [BacktestService.mddStep_ninf, BacktestService.specMddStep_fin, max_self,
          JSNum.zero_def]
        rw [BacktestService.foldl_mddStep_eq_spec]
        intro b hb
        rw [List.mem_map] at hb
        obtain ⟨u, hu, hub⟩ := hb
        obtain ⟨q, hq⟩ := hfin u (List.mem_cons_of_mem _ hu)
        exact ⟨q, hub ▸ hq⟩
  · intro hpos
    cases trades with
    | nil =>
        show JSNum.ble (JSNum.fin 0) (0 : JSNum) = true
        rw [JSNum.zero_def]
        simp
    | cons t ts =>
        obtain ⟨b0, hb0, hb0pos⟩ := hpos t (List.mem_cons_self t ts)
        simp only [BacktestService.calculateMaxDrawdown, ← List.foldl_map Trade.balance,
          List.map_cons, List.foldl_cons, hb0]
        rw [BacktestService.mddStep_ninf]
        have hz : (JSNum.fin b0 - JSNum.fin b0) / JSNum.fin b0 * (100 : JSNum) = JSNum.fin 0 := by
          rw [JSNum.fin_sub, sub_self, JSNum.fin_div 0 b0 (ne_of_gt hb0pos), JSNum.ofNat_def,
            JSNum.fin_mul]
          norm_num
        rw [hz, JSNum.zero_def, JSNum.fin_max, max_self]
        obtain ⟨p', m', heq, _hp', hm'⟩ := BacktestService.foldl_mddStep_nonneg
          (ts.map Trade.balance) b0 0 hb0pos le_rfl
          (by
            intro b hb
            rw [List.mem_map] at hb
            obtain ⟨u, hu, hub⟩ := hb
            obtain ⟨q, hq, hqpos⟩ := hpos u (List.mem_cons_of_mem _ hu)
            exact ⟨q, hub ▸ hq, hqpos⟩)
        rw [heq]
        simpa using hm'

/-- Witness for the amended C10 at a concrete positive-balance ledger. -/
theorem maxDrawdown_matches_spec_on_finite_witness :
    BacktestService.calculateMaxDrawdown mddLedgerFixture
      = BacktestService.specMaxDrawdown (mddLedgerFixture.map Trade.balance) ∧
    JSNum.ble (JSNum.fin 0) (BacktestService.calculateMaxDrawdown mddLedgerFixture) = true :=
  ⟨(maxDrawdown_matches_spec_on_finite mddLedgerFixture).1 (by decide)
      (by
        intro t ht
        rcases List.mem_cons.mp ht with h | h
        · exact ⟨200, by rw [h]⟩
        · rw [List.mem_singleton.mp h]
          exact ⟨9980, rfl⟩),
   (maxDrawdown_matches_spec_on_finite mddLedgerFixture).2
      (by
        intro t ht
        rcases List.mem_cons.mp ht with h | h
        · exact ⟨200, by rw [h], by norm_num⟩
        · rw [List.mem_singleton.mp h]
          exact ⟨9980, rfl, by norm_num⟩)⟩
